import Mathlib

/-!
Shallow embedding of the markov-text repository (Rust sources under
`src/RustImplementation/src/`): the cyclic sliding-window buffer
(`cyclic_array.rs`), the corpus normalizer, model builder and sentence
generator (`string_based_markov_text_generator.rs`), and the injected
randomness capability (`random_number_generator.rs`).

Strings are embedded as `List Char`; the stateful Rust methods become
explicit state-passing functions.  The randomness capability
(`trait RandomNumberGenerator { fn next_u32(&mut self) -> u32; }`) is
embedded as a state machine `next : σ → Nat × σ` whose produced `Nat`
stands for the returned `u32` value (only its remainder modulo a
collection length is ever used).
-/

set_option linter.unusedVariables false

deriving instance DecidableEq for Except

/-- Strings of the Rust program, embedded as lists of characters. -/
abbrev Str := List Char

/-- The Unicode white-space code points: the character class matched by the
Rust regex `\s` and by `char::is_whitespace` / `str::split_whitespace`. -/
def isWs (c : Char) : Bool :=
  [0x9, 0xA, 0xB, 0xC, 0xD, 0x20, 0x85, 0xA0, 0x1680,
   0x2000, 0x2001, 0x2002, 0x2003, 0x2004, 0x2005, 0x2006, 0x2007,
   0x2008, 0x2009, 0x200A, 0x2028, 0x2029, 0x202F, 0x205F, 0x3000].contains c.toNat

/-- `corpus.replace("\n", " ")` (line 95). -/
def replaceNl (s : Str) : Str :=
  s.map (fun c => if c = '\n' then ' ' else c)

/-- Scan for the first `']'` and return the remainder after it; models the
search for the end of a `\[.+?\]` regex match. -/
def afterFirstClose : Str → Option Str
  | [] => none
  | c :: rest => if c = ']' then some rest else afterFirstClose rest

/-- Given the characters after a `'['`, return the remainder after the
shortest match of `\[.+?\]` (the `.+?` needs at least one character, so the
first character after `'['` is skipped unconditionally). -/
def afterBracket : Str → Option Str
  | [] => none
  | _ :: rest => afterFirstClose rest

/-- The single characters removed by the sanitize regex
`\[.+?\]|\""|\)|\(|\'|\n|\r|“|”|’|_` (line 96): every alternative that
matches exactly one character.  Note the second alternative `\""` matches
TWO consecutive straight double quotes, handled separately in `sanitize`. -/
def isSingleRemoved (c : Char) : Bool :=
  c = ')' || c = '(' || c = '\'' || c = '\n' || c = '\r' ||
  c = '“' || c = '”' || c = '’' || c = '_'

/-- Leftmost-first scan of the sanitize regex
`\[.+?\]|\""|\)|\(|\'|\n|\r|“|”|’|_`, deleting every match.  The scan is
written with an explicit fuel argument (instantiated with the input
length, see `sanitize`) so that the recursion is structural and the
definition reduces in the kernel: every step consumes at least one input
character, so with `fuel ≥ s.length` the fuel-exhaustion branch is
unreachable. -/
def sanitizeF : Nat → Str → Str
  | _, [] => []
  | 0, s => s
  | fuel + 1, c :: rest =>
    if c = '[' then
      match afterBracket rest with
      | some rest2 => sanitizeF fuel rest2
      | none => c :: sanitizeF fuel rest
    else if c = '"' then
      match rest with
      | '"' :: rest2 => sanitizeF fuel rest2
      | [] => [c]
      | d :: rest2 => c :: sanitizeF fuel (d :: rest2)
    else if isSingleRemoved c then sanitizeF fuel rest
    else c :: sanitizeF fuel rest

/-- `santize.replace_all(&s, "")` (lines 96-97). -/
def sanitize (s : Str) : Str := sanitizeF s.length s

/-- `Regex::new(r"\s+")?.replace_all(&s2, " ")` (line 98): collapse every
maximal run of white-space into a single space.  The flag records whether
the scan is inside a white-space run whose single replacement space was
already emitted. -/
def collapseGo : Bool → Str → Str
  | _, [] => []
  | inRun, c :: rest =>
    if isWs c then
      if inRun then collapseGo true rest
      else ' ' :: collapseGo true rest
    else c :: collapseGo false rest

/-- The white-space collapse pass. -/
def collapseWs (s : Str) : Str := collapseGo false s

/-- `cleaned_corpus.split_whitespace()` (line 104): split on runs of
white-space; no empty tokens are produced.  `acc` holds the characters of
the current token in reverse. -/
def splitGo (acc : Str) : Str → List Str
  | [] => if acc = [] then [] else [acc.reverse]
  | c :: rest =>
    if isWs c then
      if acc = [] then splitGo [] rest
      else acc.reverse :: splitGo [] rest
    else splitGo (c :: acc) rest

/-- The white-space split. -/
def splitWs (s : Str) : List Str := splitGo [] s

/-- The normalized corpus: lines 95-98 of `analyze_corpus`. -/
def cleaned_corpus (corpus : Str) : Str :=
  collapseWs (sanitize (replaceNl corpus))

/-- The token stream `analyze_corpus` iterates over. -/
def tokensOf (corpus : Str) : List Str :=
  splitWs (cleaned_corpus corpus)

/-- `cyclic_array.rs`: a fixed-capacity circular store.  The Rust
constructor leaves the `size` slots uninitialized; per the design note the
embedding initializes them with a placeholder (`default`), which the model
builder never observes as a phrase. -/
structure CyclicArray (α : Type) where
  data : List α
deriving Repr, DecidableEq

/-- `CyclicArray::new(size)` (lines 16-29).  In Rust `new(0)` panics; the
claims only concern capacities ≥ 1. -/
def CyclicArray.new (α : Type) [Inhabited α] (size : Nat) : CyclicArray α :=
  ⟨List.replicate size default⟩

/-- `fn index(&self, index: usize) -> usize` (lines 32-42): the wrapped
index.  The Rust `while adjusted_index < 0` loop is dead code for an
unsigned index, so the function is just the remainder modulo the length. -/
def CyclicArray.index (a : CyclicArray α) (i : Nat) : Nat :=
  i % a.data.length

/-- The `IndexMut` write `array[i] = v` (lines 70-75). -/
def CyclicArray.write (a : CyclicArray α) (i : Nat) (v : α) : CyclicArray α :=
  ⟨a.data.set (a.index i) v⟩

/-- `create_offset_array(offset)` (lines 45-57): read all slots starting
from `offset`, in increasing modular order. -/
def CyclicArray.create_offset_array [Inhabited α] (a : CyclicArray α)
    (offset : Nat) : List α :=
  (List.range a.data.length).map (fun i => a.data.getD (a.index (i + offset)) default)

/-- Sequential writes of a list of values at logical indices `i, i+1, …`. -/
def CyclicArray.writeFrom (a : CyclicArray α) (i : Nat) : List α → CyclicArray α
  | [] => a
  | v :: vs => (a.write i v).writeFrom (i + 1) vs

/-- `struct StringBasedMarkovTextGenerator` (lines 10-15); the
`HashMap<String, Vec<(String, String)>>` is embedded as an association
list with unique keys. -/
structure StringBasedMarkovTextGenerator where
  order : Nat
  sentences_starter_phrases : List Str
  phrase_transitions : List (Str × List (Str × Str))
  sentence_delimiters : List Char
deriving Repr, DecidableEq

/-- `StringBasedMarkovTextGenerator::new()` (lines 61-68). -/
def StringBasedMarkovTextGenerator.new : StringBasedMarkovTextGenerator :=
  { order := 0
    sentences_starter_phrases := []
    phrase_transitions := []
    sentence_delimiters := [',', '.', '!'] }

/-- `HashMap::get` on the embedded association list. -/
def lookupT (m : List (Str × List (Str × Str))) (key : Str) :
    Option (List (Str × Str)) :=
  match m with
  | [] => none
  | (k, vs) :: rest => if k = key then some vs else lookupT rest key

/-- `self.phrase_transitions.entry(key).and_modify(|e| e.push(val))
.or_insert_with(|| vec![val])` (lines 132-135). -/
def addTransition (m : List (Str × List (Str × Str))) (key : Str)
    (val : Str × Str) : List (Str × List (Str × Str)) :=
  match m with
  | [] => [(key, [val])]
  | (k, vs) :: rest =>
    if k = key then (k, vs ++ [val]) :: rest
    else (k, vs) :: addTransition rest key val

/-- A token is a sentence terminator when its final character is one of the
`sentence_delimiters` (`word.chars().nth_back(0)` / `word.chars().last()`,
lines 116-122 and 140-146). -/
def isTerminatorTok (delims : List Char) (w : Str) : Bool :=
  match w.getLast? with
  | some c => delims.contains c
  | none => false

/-- `phrase.join(" ")` (line 127). -/
def joinSpace (ws : List Str) : Str :=
  List.intercalate [' '] ws

/-- The mutable state of the `analyze_corpus` scan loop: the locals
`word_count`, `sliding_widow`, `previous_phrase_string` (lines 100-102)
together with the generator fields the loop pushes into. -/
structure ScanState where
  word_count : Nat
  sliding_widow : CyclicArray Str
  previous_phrase_string : Option Str
  sentences_starter_phrases : List Str
  phrase_transitions : List (Str × List (Str × Str))
deriving Repr, DecidableEq

/-- One iteration of the `for word in cleaned_corpus.split_whitespace()`
loop of `analyze_corpus` (lines 104-147).  The `word.is_empty()` guard is
kept for faithfulness even though `splitWs` never yields empty tokens, and
with it the `"Word is empty"` error branch (line 113) is unreachable, so
the step is total. -/
def analyzeStep (order : Nat) (delims : List Char) (st : ScanState)
    (word : Str) : ScanState :=
  if word = [] then st
  else
    let sw := st.sliding_widow.write st.word_count word
    let wc := st.word_count + 1
    if wc < order then
      if isTerminatorTok delims word then
        { st with sliding_widow := sw, word_count := 0,
                  previous_phrase_string := none }
      else
        { st with sliding_widow := sw, word_count := wc }
    else
      let phrase_string := joinSpace (sw.create_offset_array wc)
      let st1 :=
        match st.previous_phrase_string with
        | none =>
          { st with sliding_widow := sw, word_count := wc,
                    previous_phrase_string := some phrase_string,
                    sentences_starter_phrases :=
                      st.sentences_starter_phrases ++ [phrase_string] }
        | some prev =>
          { st with sliding_widow := sw, word_count := wc,
                    previous_phrase_string := some phrase_string,
                    phrase_transitions :=
                      addTransition st.phrase_transitions prev
                        (phrase_string, word) }
      if isTerminatorTok delims word then
        { st1 with previous_phrase_string := none, word_count := 0 }
      else st1

/-- `analyze_corpus` (lines 94-150): normalize the corpus, then scan the
token stream, accumulating into the generator's existing collections (the
method appends; it never clears). -/
def analyze_corpus (g : StringBasedMarkovTextGenerator) (corpus : Str) :
    StringBasedMarkovTextGenerator :=
  let final := List.foldl (analyzeStep g.order g.sentence_delimiters)
    { word_count := 0
      sliding_widow := CyclicArray.new Str g.order
      previous_phrase_string := none
      sentences_starter_phrases := g.sentences_starter_phrases
      phrase_transitions := g.phrase_transitions }
    (tokensOf corpus)
  { g with sentences_starter_phrases := final.sentences_starter_phrases,
           phrase_transitions := final.phrase_transitions }

/-- The two failure cases of `build_markov_model` (lines 79-89): the
`"No phrases found in the corpus"` error and the
`"No phrases of order {} could be generated"` error, named as in the
spec's error-kind list. -/
inductive BuildError where
  | NoPhrasesFound
  | NoStarterPhrases
deriving Repr, DecidableEq

/-- `build_markov_model(corpus, order)` (lines 70-92): set the order, run
`analyze_corpus`, then check `phrase_transitions` first and
`sentences_starter_phrases` second. -/
def build_markov_model (g : StringBasedMarkovTextGenerator) (corpus : Str)
    (order : Nat) : Except BuildError StringBasedMarkovTextGenerator :=
  let g1 := { g with order := order }
  let g2 := analyze_corpus g1 corpus
  if g2.phrase_transitions = [] then .error .NoPhrasesFound
  else if g2.sentences_starter_phrases = [] then .error .NoStarterPhrases
  else .ok g2

/-- `const MAX_WORD_COUNT: usize = 1000` (line 8). -/
def MAX_WORD_COUNT : Nat := 1000

/-- The failure cases of `generate_sentence`: the `"There is no markov
model"` error (lines 22-26) and the `"Word limit reached {word_count}
reached for sentence: {string}"` error (lines 37-41), which carries the
counter value and the accumulated string. -/
inductive GenError where
  | NoModel
  | WordLimitExceeded (count : Nat) (sofar : Str)
deriving Repr, DecidableEq

/-- The `while let Some(phrase_transition) = self.phrase_transitions
.get(&phrase)` loop of `generate_sentence` (lines 35-53).  In Rust an
empty transition list would make `randomu32 as usize % len` a division by
zero (a panic); the embedding totalizes that case with `List.getD`, and
the builder invariant (claim C6) shows built models never reach it.

The loop terminates because `word_count` strictly increases towards
`MAX_WORD_COUNT`; this measure is made an explicit structural `fuel`
argument (instantiated with `MAX_WORD_COUNT - word_count`, see
`generate_sentence`) so that the definition reduces in the kernel.  The
fuel-exhaustion branch is unreachable: it is only reached when
`word_count + 1 < MAX_WORD_COUNT`, and then
`MAX_WORD_COUNT - word_count ≥ 2`, so fuel of the form
`MAX_WORD_COUNT - word_count` is still positive. -/
def generateLoop (pt : List (Str × List (Str × Str))) {σ : Type}
    (next : σ → Nat × σ) : Nat → σ → Str → Str → Nat → Except GenError Str
  | fuel, r, string, phrase, word_count =>
    match lookupT pt phrase with
    | none => .ok string
    | some phrase_transition =>
      if word_count + 1 ≥ MAX_WORD_COUNT then
        .error (.WordLimitExceeded (word_count + 1) string)
      else
        match fuel with
        | 0 => .ok string
        | fuel + 1 =>
          generateLoop pt next fuel (next r).2
            (string ++ ' ' ::
              (phrase_transition.getD
                ((next r).1 % phrase_transition.length) ([], [])).2)
            (phrase_transition.getD
              ((next r).1 % phrase_transition.length) ([], [])).1
            (word_count + 1)

/-- `generate_sentence(random)` (lines 18-56). -/
def generate_sentence (g : StringBasedMarkovTextGenerator) {σ : Type}
    (next : σ → Nat × σ) (r : σ) : Except GenError Str :=
  if g.sentences_starter_phrases = [] then .error .NoModel
  else
    generateLoop g.phrase_transitions next (MAX_WORD_COUNT - g.order) (next r).2
      (g.sentences_starter_phrases.getD
        ((next r).1 % g.sentences_starter_phrases.length) [])
      (g.sentences_starter_phrases.getD
        ((next r).1 % g.sentences_starter_phrases.length) [])
      g.order

/-- The value sequence produced by a randomness state machine: element `n`
is the `n`-th `next_u32()` result. -/
def rngStream {σ : Type} (next : σ → Nat × σ) : σ → Nat → Nat
  | r, 0 => (next r).1
  | r, n + 1 => rngStream next (next r).2 n

/-- Split a token list into sentence segments: each segment ends with its
terminator token (if any); the final segment may lack one.  Used to state
the claim-C3 hypothesis "every terminator-delimited segment is shorter
than `order` tokens". -/
def segmentsAfter (p : α → Bool) : List α → List (List α)
  | [] => []
  | x :: xs =>
    if p x then [x] :: segmentsAfter p xs
    else
      match segmentsAfter p xs with
      | [] => [[x]]
      | s :: ss => (x :: s) :: ss

/-- Decidable form of the builder invariant: every transition entry has a
non-empty list.  (`entriesClosed` additionally demands every transition
target to have an entry: a fully cyclic transition graph.) -/
def entriesNonempty (pt : List (Str × List (Str × Str))) : Bool :=
  pt.all (fun e => !e.2.isEmpty)

/-- Every transition entry is non-empty and every transition's target
phrase again has an entry — the transition graph is one big cycle system
from which generation can never exit. -/
def entriesClosed (pt : List (Str × List (Str × Str))) : Bool :=
  pt.all (fun e => !e.2.isEmpty && e.2.all (fun t => (lookupT pt t.1).isSome))

/-- Every starter phrase has a transition entry. -/
def startersClosed (g : StringBasedMarkovTextGenerator) : Bool :=
  g.sentences_starter_phrases.all
    (fun s => (lookupT g.phrase_transitions s).isSome)

/-- The end-to-end corpus of the spec's testable property for claim C1. -/
def corpusAB : Str := "a b c. a b d.".toList

/-- The model `build_markov_model` produces from `corpusAB` with order 2
on a fresh generator (verified by `rfl` in the theorems below). -/
def modelAB : StringBasedMarkovTextGenerator :=
  { order := 2
    sentences_starter_phrases := ["a b".toList, "a b".toList]
    phrase_transitions :=
      [("a b".toList,
        [("b c.".toList, "c.".toList), ("b d.".toList, "d.".toList)])]
    sentence_delimiters := [',', '.', '!'] }

/-- The model after building `corpusAB` (order 2) a second time on a
generator already holding `modelAB`: everything is appended again. -/
def modelABtwice : StringBasedMarkovTextGenerator :=
  { order := 2
    sentences_starter_phrases :=
      ["a b".toList, "a b".toList, "a b".toList, "a b".toList]
    phrase_transitions :=
      [("a b".toList,
        [("b c.".toList, "c.".toList), ("b d.".toList, "d.".toList),
         ("b c.".toList, "c.".toList), ("b d.".toList, "d.".toList)])]
    sentence_delimiters := [',', '.', '!'] }

/-- A randomness machine that always produces the value `k`. -/
def nextConst (k : Nat) : Unit → Nat × Unit := fun u => (k, u)

/-- A randomness machine over a different state type (a flipping Bool)
that also always produces the value 0. -/
def nextFlip : Bool → Nat × Bool := fun b => (0, !b)

/-- A generator state with order 1000 and a single self-looping phrase:
the word counter starts at 1000, so the first loop iteration trips the
`>= MAX_WORD_COUNT` check at counter value 1001. -/
def mOrd1000 : StringBasedMarkovTextGenerator :=
  { order := 1000
    sentences_starter_phrases := ["a".toList]
    phrase_transitions := [("a".toList, [("a".toList, "a".toList)])]
    sentence_delimiters := [',', '.', '!'] }

/-- A generator state with order 2 and a single self-looping phrase. -/
def mCyc : StringBasedMarkovTextGenerator :=
  { order := 2
    sentences_starter_phrases := ["a".toList]
    phrase_transitions := [("a".toList, [("a".toList, "a".toList)])]
    sentence_delimiters := [',', '.', '!'] }

/-- A generator state whose only starter phrase has no transition entry. -/
def mNoTrans : StringBasedMarkovTextGenerator :=
  { order := 2
    sentences_starter_phrases := ["a b".toList]
    phrase_transitions := []
    sentence_delimiters := [',', '.', '!'] }

/-- Claim C3's hypothesis, generalized over the running token counter `c`
of the scan: the first terminator-delimited segment together with the
tokens already counted stays below `k`, and every later segment is
shorter than `k` tokens. -/
def segsShortFrom (p : Str → Bool) (k c : Nat) (toks : List Str) : Prop :=
  match segmentsAfter p toks with
  | [] => True
  | s :: ss => c + s.length < k ∧ ∀ t ∈ ss, t.length < k

/-- The generation result is a word-limit failure reporting counter value
`n` (and carrying the partial output string). -/
def reportsWordLimitAt (n : Nat) (e : Except GenError Str) : Bool :=
  match e with
  | .error (.WordLimitExceeded m _) => m == n
  | _ => false

/-! ## Theorems -/

/-- C1 (counterexample): on corpus `"a b c. a b d."` with order 2 the
sentence terminators are kept inside tokens, so `transitions["a b"]`
holds `("b c.", "c.")` and `("b d.", "d.")` — not `("b c", "c")` and
`("b d", "d")` — and the generated sentences are `"a b c."` and
`"a b d."`, not `"a b c"` and `"a b d"` as the claim states. -/
theorem C1_counterexample :
    build_markov_model StringBasedMarkovTextGenerator.new corpusAB 2 =
      .ok modelAB ∧
    lookupT modelAB.phrase_transitions ("a b".toList) =
      some [("b c.".toList, "c.".toList), ("b d.".toList, "d.".toList)] ∧
    (("b c".toList, "c".toList) ∈
      [("b c.".toList, "c.".toList), ("b d.".toList, "d.".toList)] → False) ∧
    generate_sentence modelAB (nextConst 0) () = .ok ("a b c.".toList) ∧
    (generate_sentence modelAB (nextConst 0) () = .ok ("a b c".toList) →
      False) := by
  decide

/-- C1 (amended): end-to-end on corpus `"a b c. a b d."` with order 2:
`starterPhrases` contains `"a b"` exactly twice; `transitions["a b"]`
contains `("b c.", "c.")` and `("b d.", "d.")`; `generate` with a
randomness sequence always selecting index 0 returns `"a b c."`, and
always selecting the last available index returns `"a b d."`. -/
theorem C1_amended_end_to_end :
    build_markov_model StringBasedMarkovTextGenerator.new corpusAB 2 =
      .ok modelAB ∧
    modelAB.sentences_starter_phrases.count ("a b".toList) = 2 ∧
    lookupT modelAB.phrase_transitions ("a b".toList) =
      some [("b c.".toList, "c.".toList), ("b d.".toList, "d.".toList)] ∧
    generate_sentence modelAB (nextConst 0) () = .ok ("a b c.".toList) ∧
    generate_sentence modelAB (nextConst 1) () = .ok ("a b d.".toList) := by
  decide

/-- C2 (counterexample): building is not a fresh replacement.  Building
`corpusAB` on a fresh generator yields `modelAB`; building the same
corpus with the same order on the generator state `modelAB` yields
`modelABtwice`, whose starter phrases and transitions differ (everything
was appended a second time). -/
theorem C2_counterexample :
    build_markov_model StringBasedMarkovTextGenerator.new corpusAB 2 =
      .ok modelAB ∧
    build_markov_model modelAB corpusAB 2 = .ok modelABtwice ∧
    modelAB.sentences_starter_phrases ≠
      modelABtwice.sentences_starter_phrases ∧
    modelAB.phrase_transitions ≠ modelABtwice.phrase_transitions := by
  decide

/-- C3 (counterexample): corpus `"a."` with order 2 satisfies the claim's
hypothesis (its only terminator-delimited segment has 1 < 2 tokens), but
the build fails with `NoPhrasesFound` — the empty-transitions check on
line 79 precedes the empty-starters check on line 83 — not with
`NoStarterPhrases` as claimed. -/
theorem C3_counterexample :
    (segmentsAfter
        (isTerminatorTok StringBasedMarkovTextGenerator.new.sentence_delimiters)
        (tokensOf ("a.".toList))).all (fun s => s.length < 2) = true ∧
    build_markov_model StringBasedMarkovTextGenerator.new ("a.".toList) 2 =
      .error .NoPhrasesFound ∧
    BuildError.NoPhrasesFound ≠ BuildError.NoStarterPhrases := by
  decide

/-- C4 (code bug): the sanitize regex alternative `\""` matches two
consecutive straight double quotes, so a lone straight double quote
survives normalization: on input `a"b` the normalizer output still
contains `"`.  By contrast adjacent pairs of straight quotes, curly
quotes, parentheses, apostrophes and underscores are removed, showing
the lone-quote behaviour is a slip in the regex (the intended
alternative is `\"`). -/
theorem C4_straight_quote_retained :
    cleaned_corpus ("a\"b".toList) = "a\"b".toList ∧
    '"' ∈ cleaned_corpus ("a\"b".toList) ∧
    sanitize ("a\"\"b".toList) = "ab".toList ∧
    sanitize ("a“b”c’d(e)f_g'h".toList) = "abcdefgh".toList ∧
    sanitize ("a[xy]b".toList) = "ab".toList := by
  decide

/-- C5 (counterexample): the generator fails when the incremented word
counter is `≥ 1000`, not exactly when it reaches 1000: on a generator
state with order 1000 and a self-looping phrase, the first loop
iteration fails reporting counter value 1001. -/
theorem C5_counterexample :
    mOrd1000.order = 1000 ∧
    generate_sentence mOrd1000 (nextConst 0) () =
      .error (.WordLimitExceeded 1001 ("a".toList)) ∧
    (1001 : Nat) ≠ 1000 := by
  decide

/-! ### Shared helper lemmas -/

/-- A property preserved by each fold step is preserved by the fold. -/
theorem foldl_preserves {α β : Type} (P : β → Prop) (f : β → α → β)
    (hstep : ∀ s a, P s → P (f s a)) :
    ∀ (l : List α) (s : β), P s → P (List.foldl f s l) := by
  intro l
  induction l with
  | nil => intro s h; exact h
  | cons x xs ih => intro s h; exact ih (f s x) (hstep s x h)

/-- A successful lookup returns an entry of the association list. -/
theorem lookupT_mem : ∀ (m : List (Str × List (Str × Str))) (p : Str)
    (l : List (Str × Str)), lookupT m p = some l → (p, l) ∈ m := by
  intro m
  induction m with
  | nil => intro p l h; simp [lookupT] at h
  | cons e rest ih =>
    intro p l h
    obtain ⟨k, vs⟩ := e
    rw [lookupT] at h
    by_cases hk : k = p
    · rw [if_pos hk] at h
      cases h
      subst hk
      exact List.mem_cons_self _ _
    · rw [if_neg hk] at h
      exact List.mem_cons_of_mem _ (ih p l h)

/-- Under `entriesNonempty`, every lookup result is non-empty. -/
theorem entriesNonempty_lookup (pt : List (Str × List (Str × Str)))
    (hpt : entriesNonempty pt = true) (p : Str) (l : List (Str × Str))
    (hl : lookupT pt p = some l) : l ≠ [] := by
  have hmem := lookupT_mem pt p l hl
  have := (List.all_eq_true.mp hpt) (p, l) hmem
  simp at this
  intro hcontra
  rw [hcontra] at this
  simp at this

/-- `addTransition` preserves the non-empty-entries invariant. -/
theorem entriesNonempty_addTransition :
    ∀ (m : List (Str × List (Str × Str))) (key : Str) (val : Str × Str),
    entriesNonempty m = true →
    entriesNonempty (addTransition m key val) = true := by
  intro m
  induction m with
  | nil => intro key val h; simp [addTransition, entriesNonempty]
  | cons e rest ih =>
    intro key val h
    obtain ⟨k, vs⟩ := e
    rw [entriesNonempty, List.all_cons] at h
    obtain ⟨h1, h2⟩ := (Bool.and_eq_true _ _).mp h
    rw [addTransition]
    by_cases hk : k = key
    · rw [if_pos hk]
      rw [entriesNonempty, List.all_cons]
      simp only [Bool.and_eq_true]
      constructor
      · simp
      · exact h2
    · rw [if_neg hk]
      rw [entriesNonempty, List.all_cons]
      simp only [Bool.and_eq_true]
      exact ⟨h1, ih key val h2⟩

/-- One scan step of `analyze_corpus` preserves the non-empty-entries
invariant of the transition mapping. -/
theorem analyzeStep_entriesNonempty (order : Nat) (delims : List Char)
    (st : ScanState) (w : Str)
    (h : entriesNonempty st.phrase_transitions = true) :
    entriesNonempty (analyzeStep order delims st w).phrase_transitions =
      true := by
  unfold analyzeStep
  by_cases hw : w = []
  · rw [if_pos hw]; exact h
  · rw [if_neg hw]
    by_cases hlt : st.word_count + 1 < order
    · rw [if_pos hlt]
      by_cases ht : isTerminatorTok delims w = true
      · rw [if_pos ht]; exact h
      · rw [if_neg ht]; exact h
    · rw [if_neg hlt]
      cases hprev : st.previous_phrase_string with
      | none =>
        simp only [hprev]
        by_cases ht : isTerminatorTok delims w = true
        · rw [if_pos ht]; exact h
        · rw [if_neg ht]; exact h
      | some prev =>
        simp only [hprev]
        by_cases ht : isTerminatorTok delims w = true
        · rw [if_pos ht]
          exact entriesNonempty_addTransition _ _ _ h
        · rw [if_neg ht]
          exact entriesNonempty_addTransition _ _ _ h

/-- Effect of the `entry/and_modify/or_insert` update on lookups. -/
theorem lookupT_addTransition :
    ∀ (m : List (Str × List (Str × Str))) (key : Str) (val : Str × Str)
    (p : Str),
    lookupT (addTransition m key val) p =
      if key = p then some (((lookupT m p).getD []) ++ [val])
      else lookupT m p := by
  intro m
  induction m with
  | nil =>
    intro key val p
    by_cases h : key = p <;> simp [addTransition, lookupT, h]
  | cons e rest ih =>
    intro key val p
    obtain ⟨k, vs⟩ := e
    by_cases hk : k = key
    · subst hk
      by_cases hp : k = p
      · subst hp
        simp [addTransition, lookupT]
      · simp [addTransition, lookupT, hp]
    · by_cases hp : k = p
      · subst hp
        have hkp : ¬(key = k) := fun hc => hk hc.symm
        simp [addTransition, lookupT, hk, hkp]
      · simp [addTransition, lookupT, hk, hp, ih]

/-- One scan step of `analyze_corpus` only ever appends: the starter list
keeps its old prefix, and every old transition list keeps its old prefix. -/
theorem analyzeStep_extends (g0s : List Str)
    (g0t : List (Str × List (Str × Str))) (order : Nat) (delims : List Char)
    (st : ScanState) (w : Str)
    (h : (∃ ns, st.sentences_starter_phrases = g0s ++ ns) ∧
         (∀ p l, lookupT g0t p = some l →
            ∃ l₂, lookupT st.phrase_transitions p = some (l ++ l₂))) :
    (∃ ns, (analyzeStep order delims st w).sentences_starter_phrases =
       g0s ++ ns) ∧
    (∀ p l, lookupT g0t p = some l →
       ∃ l₂, lookupT (analyzeStep order delims st w).phrase_transitions p =
         some (l ++ l₂)) := by
  unfold analyzeStep
  by_cases hw : w = []
  · rw [if_pos hw]; exact h
  · rw [if_neg hw]
    by_cases hlt : st.word_count + 1 < order
    · rw [if_pos hlt]
      by_cases ht : isTerminatorTok delims w = true
      · rw [if_pos ht]; exact h
      · rw [if_neg ht]; exact h
    · rw [if_neg hlt]
      cases hprev : st.previous_phrase_string with
      | none =>
        simp only [hprev]
        obtain ⟨⟨ns, hns⟩, h2⟩ := h
        have hstart : ∃ ns2, st.sentences_starter_phrases ++
            [joinSpace ((st.sliding_widow.write st.word_count w).create_offset_array
              (st.word_count + 1))] = g0s ++ ns2 := by
          refine ⟨ns ++ [joinSpace
            ((st.sliding_widow.write st.word_count w).create_offset_array
              (st.word_count + 1))], ?_⟩
          rw [hns, List.append_assoc]
        by_cases ht : isTerminatorTok delims w = true
        · rw [if_pos ht]
          exact ⟨hstart, h2⟩
        · rw [if_neg ht]
          exact ⟨hstart, h2⟩
      | some prev =>
        simp only [hprev]
        obtain ⟨h1, h2⟩ := h
        have h2' : ∀ p l, lookupT g0t p = some l →
            ∃ l₂, lookupT (addTransition st.phrase_transitions prev
              (joinSpace ((st.sliding_widow.write st.word_count w).create_offset_array
                (st.word_count + 1)), w)) p = some (l ++ l₂) := by
          intro p l hl
          obtain ⟨l₂, hl₂⟩ := h2 p l hl
          rw [lookupT_addTransition]
          by_cases hpp : prev = p
          · rw [if_pos hpp, hl₂]
            refine ⟨l₂ ++ [(joinSpace
              ((st.sliding_widow.write st.word_count w).create_offset_array
                (st.word_count + 1)), w)], ?_⟩
            simp
          · rw [if_neg hpp]
            exact ⟨l₂, hl₂⟩
        by_cases ht : isTerminatorTok delims w = true
        · rw [if_pos ht]
          exact ⟨h1, h2'⟩
        · rw [if_neg ht]
          exact ⟨h1, h2'⟩

/-- One scan step preserves the claim-C10 invariant: a pending previous
phrase or a non-empty transition mapping implies a non-empty starter
list. -/
theorem analyzeStep_starterInv (order : Nat) (delims : List Char)
    (st : ScanState) (w : Str)
    (h : (st.previous_phrase_string = none ∨
            st.sentences_starter_phrases ≠ []) ∧
         (st.phrase_transitions = [] ∨ st.sentences_starter_phrases ≠ [])) :
    ((analyzeStep order delims st w).previous_phrase_string = none ∨
       (analyzeStep order delims st w).sentences_starter_phrases ≠ []) ∧
    ((analyzeStep order delims st w).phrase_transitions = [] ∨
       (analyzeStep order delims st w).sentences_starter_phrases ≠ []) := by
  unfold analyzeStep
  by_cases hw : w = []
  · rw [if_pos hw]; exact h
  · rw [if_neg hw]
    by_cases hlt : st.word_count + 1 < order
    · rw [if_pos hlt]
      by_cases ht : isTerminatorTok delims w = true
      · rw [if_pos ht]
        exact ⟨Or.inl rfl, h.2⟩
      · rw [if_neg ht]
        exact h
    · rw [if_neg hlt]
      cases hprev : st.previous_phrase_string with
      | none =>
        simp only [hprev]
        by_cases ht : isTerminatorTok delims w = true
        · rw [if_pos ht]
          refine ⟨Or.inl rfl, Or.inr ?_⟩
          simp
        · rw [if_neg ht]
          refine ⟨Or.inr ?_, Or.inr ?_⟩ <;> simp
      | some prev =>
        simp only [hprev]
        have hs : st.sentences_starter_phrases ≠ [] := by
          rcases h.1 with h1 | h1
          · rw [hprev] at h1; cases h1
          · exact h1
        by_cases ht : isTerminatorTok delims w = true
        · rw [if_pos ht]
          exact ⟨Or.inl rfl, Or.inr hs⟩
        · rw [if_neg ht]
          exact ⟨Or.inr hs, Or.inr hs⟩

/-- Unpacking `entriesClosed`: a lookup result is non-empty and all its
targets again have entries. -/
theorem entriesClosed_spec (pt : List (Str × List (Str × Str)))
    (hpt : entriesClosed pt = true) (p : Str) (l : List (Str × Str))
    (hl : lookupT pt p = some l) :
    l ≠ [] ∧ ∀ t ∈ l, (lookupT pt t.1).isSome = true := by
  have hmem := lookupT_mem pt p l hl
  have := (List.all_eq_true.mp hpt) (p, l) hmem
  obtain ⟨h1, h2⟩ := (Bool.and_eq_true _ _).mp this
  constructor
  · intro hcontra
    rw [hcontra] at h1
    simp at h1
  · intro t ht
    exact (List.all_eq_true.mp h2) t ht

/-- In a closed transition graph, the generation loop always ends in the
word-limit error, and the reported counter value is exactly
`MAX_WORD_COUNT` whenever it enters with a counter below the limit. -/
theorem genLoop_word_limit (pt : List (Str × List (Str × Str)))
    (hpt : entriesClosed pt = true) {σ : Type} (next : σ → Nat × σ) :
    ∀ (fuel wc : Nat) (r : σ) (s p : Str),
    MAX_WORD_COUNT - wc ≤ fuel → wc < MAX_WORD_COUNT →
    (lookupT pt p).isSome = true →
    ∃ out, generateLoop pt next fuel r s p wc =
      .error (.WordLimitExceeded MAX_WORD_COUNT out) := by
  intro fuel
  induction fuel with
  | zero =>
    intro wc r s p hf hwc hp
    exfalso
    simp [MAX_WORD_COUNT] at hf hwc
    omega
  | succ f ih =>
    intro wc r s p hf hwc hp
    rw [generateLoop]
    obtain ⟨l, hl⟩ := Option.isSome_iff_exists.mp hp
    simp only [hl]
    by_cases hend : wc + 1 ≥ MAX_WORD_COUNT
    · rw [if_pos hend]
      have heq : wc + 1 = MAX_WORD_COUNT := by
        simp [MAX_WORD_COUNT] at hend hwc ⊢
        omega
      exact ⟨s, by rw [heq]⟩
    · rw [if_neg hend]
      obtain ⟨hne, hcl⟩ := entriesClosed_spec pt hpt p l hl
      have hlenpos : 0 < l.length := List.length_pos.mpr hne
      have hidx : (next r).1 % l.length < l.length := Nat.mod_lt _ hlenpos
      have hmem : l.getD ((next r).1 % l.length) ([], []) ∈ l := by
        rw [List.getD_eq_getElem l ([], []) hidx]
        exact List.getElem_mem hidx
      exact ih (wc + 1) (next r).2 _ _
        (by simp [MAX_WORD_COUNT] at hf hend ⊢; omega)
        (by simp [MAX_WORD_COUNT] at hend ⊢; omega)
        (hcl _ hmem)

/-- The generation loop is a function of the produced value stream alone:
two randomness machines whose streams agree give identical loop results. -/
theorem genLoop_congr (pt : List (Str × List (Str × Str))) {σ₁ σ₂ : Type}
    (n₁ : σ₁ → Nat × σ₁) (n₂ : σ₂ → Nat × σ₂) :
    ∀ (fuel : Nat) (r₁ : σ₁) (r₂ : σ₂) (s p : Str) (wc : Nat),
    (∀ n, rngStream n₁ r₁ n = rngStream n₂ r₂ n) →
    generateLoop pt n₁ fuel r₁ s p wc = generateLoop pt n₂ fuel r₂ s p wc := by
  intro fuel
  induction fuel with
  | zero =>
    intro r₁ r₂ s p wc h
    rw [generateLoop, generateLoop]
  | succ f ih =>
    intro r₁ r₂ s p wc h
    rw [generateLoop, generateLoop]
    cases hl : lookupT pt p with
    | none => rfl
    | some l =>
      simp only []
      by_cases hwc : wc + 1 ≥ MAX_WORD_COUNT
      · rw [if_pos hwc, if_pos hwc]
      · rw [if_neg hwc, if_neg hwc]
        have h0 : (n₁ r₁).1 = (n₂ r₂).1 := h 0
        rw [h0]
        exact ih (n₁ r₁).2 (n₂ r₂).2 _ _ _ (fun n => h (n + 1))

/-- The constant machine produces the constant stream. -/
theorem rngStream_nextConst (k : Nat) :
    ∀ (n : Nat) (u : Unit), rngStream (nextConst k) u n = k := by
  intro n
  induction n with
  | zero => intro u; rfl
  | succ m ih => intro u; exact ih ()

/-- The flipping machine also produces the all-zero stream. -/
theorem rngStream_nextFlip :
    ∀ (n : Nat) (b : Bool), rngStream nextFlip b n = 0 := by
  intro n
  induction n with
  | zero => intro b; rfl
  | succ m ih => intro b; exact ih (!b)

/-- Taking one element past an in-bounds `set` splits off the new value. -/
theorem take_succ_set {α : Type} (l : List α) : ∀ (i : Nat) (v : α),
    i < l.length → (l.set i v).take (i + 1) = l.take i ++ [v] := by
  induction l with
  | nil => intro i v h; simp at h
  | cons x xs ih =>
    intro i v h
    cases i with
    | zero => simp
    | succ i =>
      simp only [List.length_cons] at h
      simp only [List.set, List.take]
      rw [ih i v (by omega)]
      simp

/-- Writing a value list at consecutive logical indices that exactly fill
the remaining slots replaces the tail of the buffer with the list. -/
theorem writeFrom_data {α : Type} : ∀ (vs : List α) (i : Nat)
    (a : CyclicArray α), i + vs.length = a.data.length →
    (a.writeFrom i vs).data = a.data.take i ++ vs := by
  intro vs
  induction vs with
  | nil =>
    intro i a h
    simp only [List.length_nil, Nat.add_zero] at h
    simp [CyclicArray.writeFrom, h, List.take_length]
  | cons v vs ih =>
    intro i a h
    simp only [List.length_cons] at h
    have hi : i < a.data.length := by omega
    have hset : (a.write i v).data = a.data.set i v := by
      simp [CyclicArray.write, CyclicArray.index, Nat.mod_eq_of_lt hi]
    have hlen : (a.write i v).data.length = a.data.length := by
      rw [hset]; simp
    rw [CyclicArray.writeFrom, ih (i + 1) (a.write i v) (by omega)]
    rw [hset, take_succ_set a.data i v hi]
    simp

/-- Reading every position of a list through `getD` reproduces the list. -/
theorem range_map_getD {α : Type} [Inhabited α] :
    ∀ (l : List α),
    (List.range l.length).map (fun i => l.getD i default) = l := by
  intro l
  induction l with
  | nil => simp
  | cons x xs ih =>
    rw [List.length_cons, List.range_succ_eq_map]
    simp only [List.map_cons, List.getD_cons_zero, List.map_map]
    have hc : (List.range xs.length).map
        ((fun i => (x :: xs).getD i default) ∘ Nat.succ) =
        (List.range xs.length).map (fun i => xs.getD i default) := by
      apply List.map_congr_left
      intro a ha
      simp
    rw [hc, ih]

/-- `create_offset_array 0` reads the buffer back unchanged. -/
theorem create_offset_zero {α : Type} [Inhabited α] (a : CyclicArray α)
    (h : a.data.length ≠ 0) : a.create_offset_array 0 = a.data := by
  unfold CyclicArray.create_offset_array CyclicArray.index
  conv => rhs; rw [← range_map_getD a.data]
  apply List.map_congr_left
  intro i hi
  have hlt : i < a.data.length := List.mem_range.mp hi
  simp [Nat.mod_eq_of_lt hlt]

/-- Only the empty token list has no segments. -/
theorem segmentsAfter_eq_nil {α : Type} (p : α → Bool) :
    ∀ (l : List α), segmentsAfter p l = [] → l = [] := by
  intro l
  cases l with
  | nil => intro; rfl
  | cons x xs =>
    intro h
    rw [segmentsAfter] at h
    by_cases hp : p x
    · rw [if_pos hp] at h
      cases h
    · rw [if_neg hp] at h
      revert h
      cases segmentsAfter p xs <;> intro h <;> cases h

/-- The core claim-C3 scan lemma: while every (counter-adjusted)
terminator-delimited segment stays shorter than the order, the scan never
completes a window, so the starter list and the transition mapping are
left untouched and no previous phrase is pending. -/
theorem scanNoPhrase (k : Nat) (delims : List Char) :
    ∀ (toks : List Str) (c : Nat) (sw : CyclicArray Str) (S : List Str)
    (T : List (Str × List (Str × Str))),
    segsShortFrom (isTerminatorTok delims) k c toks →
    ∃ c' sw', List.foldl (analyzeStep k delims)
      { word_count := c, sliding_widow := sw, previous_phrase_string := none,
        sentences_starter_phrases := S, phrase_transitions := T } toks =
      { word_count := c', sliding_widow := sw',
        previous_phrase_string := none,
        sentences_starter_phrases := S, phrase_transitions := T } := by
  intro toks
  induction toks with
  | nil =>
    intro c sw S T h
    exact ⟨c, sw, rfl⟩
  | cons w ws ih =>
    intro c sw S T h
    rw [List.foldl_cons]
    by_cases hw : w = []
    · have hstep : analyzeStep k delims
          { word_count := c, sliding_widow := sw,
            previous_phrase_string := none,
            sentences_starter_phrases := S, phrase_transitions := T } w =
          { word_count := c, sliding_widow := sw,
            previous_phrase_string := none,
            sentences_starter_phrases := S, phrase_transitions := T } := by
        unfold analyzeStep
        rw [if_pos hw]
      rw [hstep]
      apply ih
      unfold segsShortFrom at h ⊢
      have hterm : isTerminatorTok delims w = false := by
        rw [hw]; rfl
      rw [segmentsAfter, hterm] at h
      simp only [Bool.false_eq_true, if_false] at h
      revert h
      cases hseg : segmentsAfter (isTerminatorTok delims) ws with
      | nil => intro h; trivial
      | cons s ss =>
        intro h
        obtain ⟨h1, h2⟩ := h
        refine ⟨?_, h2⟩
        simp only [List.length_cons] at h1
        omega
    · have hc1 : c + 1 < k := by
        unfold segsShortFrom at h
        rw [segmentsAfter] at h
        by_cases ht : isTerminatorTok delims w = true
        · rw [if_pos ht] at h
          obtain ⟨h1, h2⟩ := h
          simp only [List.length_cons, List.length_nil] at h1
          omega
        · simp only [ht, if_false] at h
          revert h
          cases hseg : segmentsAfter (isTerminatorTok delims) ws with
          | nil =>
            intro h
            obtain ⟨h1, h2⟩ := h
            simp only [List.length_cons, List.length_nil] at h1
            omega
          | cons s ss =>
            intro h
            obtain ⟨h1, h2⟩ := h
            simp only [List.length_cons] at h1
            omega
      by_cases ht : isTerminatorTok delims w = true
      · have hstep : analyzeStep k delims
            { word_count := c, sliding_widow := sw,
              previous_phrase_string := none,
              sentences_starter_phrases := S, phrase_transitions := T } w =
            { word_count := 0, sliding_widow := sw.write c w,
              previous_phrase_string := none,
              sentences_starter_phrases := S, phrase_transitions := T } := by
          unfold analyzeStep
          rw [if_neg hw, if_pos hc1, if_pos ht]
        rw [hstep]
        apply ih
        unfold segsShortFrom at h ⊢
        rw [segmentsAfter, if_pos ht] at h
        obtain ⟨h1, h2⟩ := h
        cases hseg : segmentsAfter (isTerminatorTok delims) ws with
        | nil => trivial
        | cons s ss =>
          rw [hseg] at h2
          refine ⟨?_, fun t htm => h2 t (List.mem_cons_of_mem _ htm)⟩
          have := h2 s (List.mem_cons_self _ _)
          omega
      · have hstep : analyzeStep k delims
            { word_count := c, sliding_widow := sw,
              previous_phrase_string := none,
              sentences_starter_phrases := S, phrase_transitions := T } w =
            { word_count := c + 1, sliding_widow := sw.write c w,
              previous_phrase_string := none,
              sentences_starter_phrases := S, phrase_transitions := T } := by
          unfold analyzeStep
          rw [if_neg hw, if_pos hc1, if_neg ht]
        rw [hstep]
        apply ih
        unfold segsShortFrom at h ⊢
        rw [segmentsAfter] at h
        simp only [ht, if_false] at h
        revert h
        cases hseg : segmentsAfter (isTerminatorTok delims) ws with
        | nil => intro h; trivial
        | cons s ss =>
          intro h
          obtain ⟨h1, h2⟩ := h
          refine ⟨?_, h2⟩
          simp only [List.length_cons] at h1
          omega

/-! ### Claim theorems (quantified) -/

/-- C2 (amended): building accumulates instead of replacing.  For every
generator state, corpus and order, a successful build returns a model
whose starter list starts with the previous starter list and whose
transition list for every previously present key starts with the previous
transitions — the new observations are appended after them.  (The result
therefore depends on the prior state; only on a fresh generator is the
model a function of corpus and order alone.) -/
theorem C2_build_accumulates (g : StringBasedMarkovTextGenerator)
    (corpus : Str) (k : Nat) (m' : StringBasedMarkovTextGenerator)
    (hb : build_markov_model g corpus k = .ok m') :
    m'.sentences_starter_phrases.take g.sentences_starter_phrases.length =
      g.sentences_starter_phrases ∧
    ∀ p l, lookupT g.phrase_transitions p = some l →
      ((lookupT m'.phrase_transitions p).getD []).take l.length = l := by
  have hinv := foldl_preserves
    (fun st : ScanState =>
      (∃ ns, st.sentences_starter_phrases =
        g.sentences_starter_phrases ++ ns) ∧
      (∀ p l, lookupT g.phrase_transitions p = some l →
         ∃ l₂, lookupT st.phrase_transitions p = some (l ++ l₂)))
    (analyzeStep k g.sentence_delimiters)
    (fun s a hs => analyzeStep_extends _ _ k _ s a hs)
    (tokensOf corpus)
    { word_count := 0
      sliding_widow := CyclicArray.new Str k
      previous_phrase_string := none
      sentences_starter_phrases := g.sentences_starter_phrases
      phrase_transitions := g.phrase_transitions }
    ⟨⟨[], by simp⟩, fun p l hl => ⟨[], by simp [hl]⟩⟩
  unfold build_markov_model at hb
  by_cases h1 : (analyze_corpus { g with order := k } corpus).phrase_transitions = []
  · rw [if_pos h1] at hb; cases hb
  · rw [if_neg h1] at hb
    by_cases h2 : (analyze_corpus { g with order := k } corpus).sentences_starter_phrases = []
    · rw [if_pos h2] at hb; cases hb
    · rw [if_neg h2] at hb
      cases hb
      have hext : (∃ ns, (analyze_corpus { g with order := k } corpus).sentences_starter_phrases =
            g.sentences_starter_phrases ++ ns) ∧
          (∀ p l, lookupT g.phrase_transitions p = some l →
             ∃ l₂, lookupT (analyze_corpus { g with order := k } corpus).phrase_transitions p =
               some (l ++ l₂)) := by
        unfold analyze_corpus
        exact hinv
      constructor
      · obtain ⟨ns, hns⟩ := hext.1
        rw [hns]
        exact List.take_left _ _
      · intro p l hl
        obtain ⟨l₂, hl₂⟩ := hext.2 p l hl
        rw [hl₂]
        exact List.take_left _ _

/-- C3 (amended): for every order `k ≥ 1` and every corpus all of whose
terminator-delimited token segments are shorter than `k`, the build fails —
but with the `NoPhrasesFound` error (the empty-transitions check runs
first), not with `NoStarterPhrases` as the claim states. -/
theorem C3_short_corpus_no_phrases (corpus : Str) (k : Nat) (hk : 1 ≤ k)
    (h : ∀ s ∈ segmentsAfter (isTerminatorTok [',', '.', '!'])
      (tokensOf corpus), s.length < k) :
    build_markov_model StringBasedMarkovTextGenerator.new corpus k =
      .error .NoPhrasesFound := by
  have hseg : segsShortFrom (isTerminatorTok [',', '.', '!']) k 0
      (tokensOf corpus) := by
    unfold segsShortFrom
    cases hs : segmentsAfter (isTerminatorTok [',', '.', '!'])
        (tokensOf corpus) with
    | nil => trivial
    | cons s ss =>
      refine ⟨?_, fun t ht => h t (by rw [hs]; exact List.mem_cons_of_mem _ ht)⟩
      have := h s (by rw [hs]; exact List.mem_cons_self _ _)
      omega
  obtain ⟨c', sw', hfold⟩ := scanNoPhrase k [',', '.', '!'] (tokensOf corpus) 0
    (CyclicArray.new Str k) [] [] hseg
  unfold build_markov_model analyze_corpus
  simp only [StringBasedMarkovTextGenerator.new]
  rw [hfold]
  simp

/-- C5 (amended): the generator's word counter starts at the model order
and is incremented on each loop iteration whose phrase has transitions;
generation fails with the word-limit error as soon as the incremented
counter is `≥ 1000`.  In particular, in every model with order `< 1000`
whose transition graph is closed (every starter has transitions and every
transition target again has transitions), generation always terminates in
the word-limit error reporting counter value exactly 1000 — it never
loops forever. -/
theorem C5_word_limit (g : StringBasedMarkovTextGenerator) {σ : Type}
    (next : σ → Nat × σ) (r : σ)
    (ho : g.order < MAX_WORD_COUNT)
    (hs : g.sentences_starter_phrases ≠ [])
    (hsc : startersClosed g = true)
    (hec : entriesClosed g.phrase_transitions = true) :
    reportsWordLimitAt MAX_WORD_COUNT (generate_sentence g next r) = true := by
  have hmain : ∃ out, generate_sentence g next r =
      .error (.WordLimitExceeded MAX_WORD_COUNT out) := by
    unfold generate_sentence
    rw [if_neg hs]
    have hlenpos : 0 < g.sentences_starter_phrases.length :=
      List.length_pos.mpr hs
    have hidx : (next r).1 % g.sentences_starter_phrases.length <
        g.sentences_starter_phrases.length := Nat.mod_lt _ hlenpos
    have hmem : g.sentences_starter_phrases.getD
        ((next r).1 % g.sentences_starter_phrases.length) [] ∈
        g.sentences_starter_phrases := by
      rw [List.getD_eq_getElem _ [] hidx]
      exact List.getElem_mem hidx
    have hstart := (List.all_eq_true.mp hsc) _ hmem
    exact genLoop_word_limit g.phrase_transitions hec next _ g.order
      (next r).2 _ _ (Nat.le_refl _) ho hstart
  obtain ⟨out, hout⟩ := hmain
  rw [hout]
  simp [reportsWordLimitAt]

/-- C6: invariant of every successful build starting from a state whose
transition entries are all non-empty (in particular the fresh generator):
every key present in the built model's transition mapping maps to a
non-empty transition list, so the generator's modulus over a transition
list length is never a modulus by zero. -/
theorem C6_transitions_nonempty (g : StringBasedMarkovTextGenerator)
    (corpus : Str) (k : Nat) (m' : StringBasedMarkovTextGenerator)
    (hk : 1 ≤ k)
    (hg : entriesNonempty g.phrase_transitions = true)
    (hb : build_markov_model g corpus k = .ok m') :
    entriesNonempty m'.phrase_transitions = true ∧
    ∀ (p : Str) (l : List (Str × Str)),
      lookupT m'.phrase_transitions p = some l → l ≠ [] := by
  have hinv : entriesNonempty
      (analyze_corpus { g with order := k } corpus).phrase_transitions = true := by
    unfold analyze_corpus
    exact foldl_preserves
      (fun st : ScanState => entriesNonempty st.phrase_transitions = true)
      _ (fun s a hs => analyzeStep_entriesNonempty k _ s a hs) _ _ hg
  unfold build_markov_model at hb
  by_cases h1 : (analyze_corpus { g with order := k } corpus).phrase_transitions = []
  · rw [if_pos h1] at hb
    cases hb
  · rw [if_neg h1] at hb
    by_cases h2 : (analyze_corpus { g with order := k } corpus).sentences_starter_phrases = []
    · rw [if_pos h2] at hb
      cases hb
    · rw [if_neg h2] at hb
      cases hb
      constructor
      · exact hinv
      · intro p l hl
        exact entriesNonempty_lookup _ hinv p l hl

/-- C7: for every model with a non-empty starter list and every randomness
machine, if the selected starter phrase has no entry in the transition
mapping then generation succeeds immediately and returns exactly that
starter phrase. -/
theorem C7_starter_without_transitions (g : StringBasedMarkovTextGenerator)
    {σ : Type} (next : σ → Nat × σ) (r : σ)
    (h1 : g.sentences_starter_phrases ≠ [])
    (h2 : lookupT g.phrase_transitions
        (g.sentences_starter_phrases.getD
          ((next r).1 % g.sentences_starter_phrases.length) []) = none) :
    generate_sentence g next r =
      .ok (g.sentences_starter_phrases.getD
        ((next r).1 % g.sentences_starter_phrases.length) []) := by
  unfold generate_sentence
  rw [if_neg h1]
  rw [generateLoop]
  rw [h2]

/-- C8: generation is deterministic in the supplied randomness: for a
fixed model, two generation runs driven by randomness machines producing
identical value sequences return identical results (same success string
or same error). -/
theorem C8_deterministic_replay (g : StringBasedMarkovTextGenerator)
    {σ₁ σ₂ : Type} (n₁ : σ₁ → Nat × σ₁) (n₂ : σ₂ → Nat × σ₂)
    (r₁ : σ₁) (r₂ : σ₂)
    (h : ∀ n, rngStream n₁ r₁ n = rngStream n₂ r₂ n) :
    generate_sentence g n₁ r₁ = generate_sentence g n₂ r₂ := by
  unfold generate_sentence
  by_cases hs : g.sentences_starter_phrases = []
  · rw [if_pos hs, if_pos hs]
  · rw [if_neg hs, if_neg hs]
    have h0 : (n₁ r₁).1 = (n₂ r₂).1 := h 0
    rw [h0]
    exact genLoop_congr _ n₁ n₂ _ _ _ _ _ _ (fun n => h (n + 1))

/-- C9: round trip through the sliding window buffer.  For every capacity
`N ≥ 1`, writing `N` values sequentially at logical indices `0..N-1` and
reading back with `create_offset_array 0` returns the written values in
their original order; and buffer index resolution is periodic:
`index (i + k·N) = index i` for every `i` and `k`. -/
theorem C9_buffer_round_trip (α : Type) [Inhabited α] (N : Nat)
    (hN : 1 ≤ N) (vals : List α) (hv : vals.length = N)
    (a : CyclicArray α) (ha : a.data.length = N) :
    ((CyclicArray.new α N).writeFrom 0 vals).create_offset_array 0 = vals ∧
    ∀ (i k : Nat), a.index (i + k * N) = a.index i := by
  constructor
  · have hlen : (CyclicArray.new α N).data.length = N := by
      simp [CyclicArray.new]
    have hd : ((CyclicArray.new α N).writeFrom 0 vals).data = vals := by
      rw [writeFrom_data vals 0 _ (by omega)]
      simp
    rw [create_offset_zero _ (by rw [hd, hv]; omega)]
    exact hd
  · intro i k
    unfold CyclicArray.index
    rw [ha]
    exact Nat.add_mul_mod_self_right i k N

/-- C10: implicit invariant of `analyze_corpus` and consequence for
`build_markov_model`.  From any generator state satisfying the reachable
invariant "non-empty transitions imply non-empty starters" (the fresh
generator trivially does), `analyze_corpus` re-establishes that
invariant — a transition is only recorded after a starter phrase was
pushed since the last reset — and therefore `build_markov_model` can
never return the `NoStarterPhrases` error: that branch is unreachable. -/
theorem C10_no_starter_error_unreachable (g : StringBasedMarkovTextGenerator)
    (corpus : Str) (k : Nat) (hk : 1 ≤ k)
    (hg : g.phrase_transitions = [] ∨ g.sentences_starter_phrases ≠ []) :
    ((analyze_corpus { g with order := k } corpus).phrase_transitions = [] ∨
      (analyze_corpus { g with order := k } corpus).sentences_starter_phrases ≠ []) ∧
    build_markov_model g corpus k ≠ .error .NoStarterPhrases := by
  have hinv := foldl_preserves
    (fun st : ScanState =>
      (st.previous_phrase_string = none ∨ st.sentences_starter_phrases ≠ []) ∧
      (st.phrase_transitions = [] ∨ st.sentences_starter_phrases ≠ []))
    (analyzeStep k g.sentence_delimiters)
    (fun s a hs => analyzeStep_starterInv k _ s a hs)
    (tokensOf corpus)
    { word_count := 0
      sliding_widow := CyclicArray.new Str k
      previous_phrase_string := none
      sentences_starter_phrases := g.sentences_starter_phrases
      phrase_transitions := g.phrase_transitions }
    ⟨Or.inl rfl, hg⟩
  have hres : (analyze_corpus { g with order := k } corpus).phrase_transitions = [] ∨
      (analyze_corpus { g with order := k } corpus).sentences_starter_phrases ≠ [] := by
    unfold analyze_corpus
    exact hinv.2
  refine ⟨hres, ?_⟩
  unfold build_markov_model
  by_cases h1 : (analyze_corpus { g with order := k } corpus).phrase_transitions = []
  · rw [if_pos h1]
    intro hcontra
    cases hcontra
  · rw [if_neg h1]
    have h2 : (analyze_corpus { g with order := k } corpus).sentences_starter_phrases ≠ [] := by
      rcases hres with h | h
      · exact absurd h h1
      · exact h
    rw [if_neg h2]
    intro hcontra
    cases hcontra

/-! ### Witnesses for the hypothesised claim theorems -/

/-- Witness for C2: building `corpusAB` a second time on `modelAB` keeps
the old starters and the old transitions of key `"a b"` as prefixes. -/
theorem C2_build_accumulates_witness :
    modelABtwice.sentences_starter_phrases.take
        modelAB.sentences_starter_phrases.length =
      modelAB.sentences_starter_phrases ∧
    ((lookupT modelABtwice.phrase_transitions ("a b".toList)).getD []).take
        ([("b c.".toList, "c.".toList), ("b d.".toList, "d.".toList)] :
          List (Str × Str)).length =
      [("b c.".toList, "c.".toList), ("b d.".toList, "d.".toList)] :=
  ⟨(C2_build_accumulates modelAB corpusAB 2 modelABtwice (by decide)).1,
   (C2_build_accumulates modelAB corpusAB 2 modelABtwice (by decide)).2
     ("a b".toList)
     [("b c.".toList, "c.".toList), ("b d.".toList, "d.".toList)]
     (by decide)⟩

/-- Witness for C3: corpus `"a."` with order 2 satisfies the short-segment
hypothesis and the build fails with `NoPhrasesFound`. -/
theorem C3_short_corpus_no_phrases_witness :
    build_markov_model StringBasedMarkovTextGenerator.new ("a.".toList) 2 =
      .error .NoPhrasesFound :=
  C3_short_corpus_no_phrases ("a.".toList) 2 (by decide) (by decide)

/-- Witness for C5: on the self-looping order-2 model, generation driven
by the constant-zero machine fails reporting counter value 1000. -/
theorem C5_word_limit_witness :
    reportsWordLimitAt MAX_WORD_COUNT
      (generate_sentence mCyc (nextConst 0) ()) = true :=
  C5_word_limit mCyc (nextConst 0) () (by decide) (by decide) (by decide)
    (by decide)

/-- Witness for C6: the model built from `corpusAB` on a fresh generator
has only non-empty transition entries. -/
theorem C6_transitions_nonempty_witness :
    entriesNonempty modelAB.phrase_transitions = true :=
  (C6_transitions_nonempty StringBasedMarkovTextGenerator.new corpusAB 2
    modelAB (by decide) (by decide) (by decide)).1

/-- Witness for C7: on `mNoTrans` the selected starter `"a b"` has no
transitions and generation returns it unchanged. -/
theorem C7_starter_without_transitions_witness :
    generate_sentence mNoTrans (nextConst 0) () = .ok ("a b".toList) :=
  C7_starter_without_transitions mNoTrans (nextConst 0) () (by decide)
    (by decide)

/-- Witness for C8: two randomness machines over different state types
with identical (all-zero) value streams generate the same sentence. -/
theorem C8_deterministic_replay_witness :
    generate_sentence modelAB (nextConst 0) () =
      generate_sentence modelAB nextFlip false :=
  C8_deterministic_replay modelAB (nextConst 0) nextFlip () false
    (fun n => (rngStream_nextConst 0 n ()).trans
      (rngStream_nextFlip n false).symm)

/-- Witness for C9: three sequential writes into a capacity-3 buffer read
back in order, and index resolution is periodic with period 3. -/
theorem C9_buffer_round_trip_witness :
    (((CyclicArray.new Nat 3).writeFrom 0 [10, 20, 30]).create_offset_array 0 =
      [10, 20, 30]) ∧
    (CyclicArray.mk [7, 8, 9]).index (2 + 5 * 3) =
      (CyclicArray.mk [7, 8, 9]).index 2 :=
  ⟨(C9_buffer_round_trip Nat 3 (by decide) [10, 20, 30] (by decide)
      (CyclicArray.mk [7, 8, 9]) (by decide)).1,
   (C9_buffer_round_trip Nat 3 (by decide) [10, 20, 30] (by decide)
      (CyclicArray.mk [7, 8, 9]) (by decide)).2 2 5⟩

/-- Witness for C10: building corpus `"a"` with order 5 (no phrase can
form) does not return the `NoStarterPhrases` error. -/
theorem C10_no_starter_error_unreachable_witness :
    build_markov_model StringBasedMarkovTextGenerator.new ("a".toList) 5 ≠
      .error .NoStarterPhrases :=
  (C10_no_starter_error_unreachable StringBasedMarkovTextGenerator.new
    ("a".toList) 5 (by decide) (Or.inl rfl)).2
